import Mathlib

/-!
Verification of the urlshortner service (axtonleon/urlshortner).

Shallow embedding of the key-management / access-control core:
`models.py` (data model), `crud.py` (store operations), `auth.py`
(token issuance and resolution), `security.py` (password hashing,
modelled abstractly), and the route handlers of `routers.py`.

UUIDs are modelled as `Nat`, timestamps as `Nat` seconds, and the
SQLAlchemy session plus PostgreSQL store as an explicit `DB` value
threaded through every operation.  Columns declared `unique=True` in
`models.py` (and created as unique indexes by the Alembic migration)
are enforced at insert time, mirroring the database-level constraint
backstop behind `db.commit()`.
-/

namespace UrlShortner

/-- Embedding of `models.User` (models.py): uuid id, unique username,
unique email, bcrypt hash, active flag.  `date_created` is omitted:
no claim mentions it. -/
structure User where
  id : Nat
  username : String
  email : String
  hashed_password : String
  is_active : Bool
  deriving Repr, DecidableEq

/-- Embedding of `models.URL` (models.py): uuid id, unique short `key`,
unique `secret_key`, target, active flag (default true), clicks
(default 0), nullable `owner_id` (anonymous URLs allowed).
`date_created` omitted: no claim mentions it. -/
structure URL where
  id : Nat
  key : String
  secret_key : String
  target_url : String
  is_active : Bool
  clicks : Nat
  owner_id : Option Nat
  deriving Repr, DecidableEq

/-- The relational store: the `users` and `urls` tables. -/
structure DB where
  users : List User
  urls : List URL
  deriving Repr, DecidableEq

/-- Well-formedness of the `urls` table: the primary key `id` and the
`unique=True` columns `key` and `secret_key` (models.py, and the
unique indexes of the initial migration) are pairwise distinct. -/
def DB.WF (db : DB) : Prop :=
  db.urls.Pairwise fun a b => a.id ≠ b.id ∧ a.key ≠ b.key ∧ a.secret_key ≠ b.secret_key

/-! ## security.py — password hasher

The spec treats the bcrypt primitive as an external collaborator
("password-hash algorithm internals ... delegated to a vetted hashing
primitive").  It is modelled as an injective tagging function: the
only property the core relies on is that `verify_password p h` holds
exactly when `h` is the hash of `p`. -/

/-- Model of `security.get_password_hash` (bcrypt via passlib). -/
def get_password_hash (password : String) : String :=
  "bcrypt$" ++ password

/-- Model of `security.verify_password` (bcrypt via passlib). -/
def verify_password (plain_password : String) (hashed_password : String) : Bool :=
  hashed_password == get_password_hash plain_password

/-! ## crud.py — user operations -/

/-- Embedding of `crud.get_user_by_username`.  Despite its name and
docstring, the source filters on the EMAIL column:
`db.query(models.User).filter(models.User.email == email).first()`. -/
def get_user_by_username (db : DB) (email : String) : Option User :=
  db.users.find? fun u => u.email == email

/-- Embedding of `schemas.UserCreate` (username, email, password). -/
structure UserCreate where
  username : String
  email : String
  password : String
  deriving Repr, DecidableEq

/-- Commit of a new user row (`db.add` + `db.commit`).  The store
enforces the `unique=True` constraints on `username` and `email`
declared in models.py and created by the migration: a duplicate
insert raises `IntegrityError`, modelled as `none`. -/
def insert_user (db : DB) (u : User) : Option DB :=
  if db.users.any (fun v => v.username == u.username || v.email == u.email) then
    none
  else
    some { db with users := db.users ++ [u] }

/-- Failure modes of `crud.create_user`: the explicit
`ValueError("Email already registered")`, or the database
`IntegrityError` raised at commit by a unique-constraint violation. -/
inductive CreateUserError where
  | emailRegistered
  | integrityError
  deriving Repr, DecidableEq

/-- Embedding of `crud.create_user`: check the email for duplicates,
hash the password, insert.  `newId` stands for the `uuid4()` default
of the id column. -/
def create_user (db : DB) (user : UserCreate) (newId : Nat) :
    Except CreateUserError (DB × User) :=
  if (db.users.find? fun u => u.email == user.email).isSome then
    Except.error CreateUserError.emailRegistered
  else
    let db_user : User :=
      { id := newId
        username := user.username
        email := user.email
        hashed_password := get_password_hash user.password
        is_active := true }
    match insert_user db db_user with
    | some db2 => Except.ok (db2, db_user)
    | none => Except.error CreateUserError.integrityError

/-! ## crud.py — URL operations -/

/-- Embedding of `crud.get_db_url_by_key`. -/
def get_db_url_by_key (db : DB) (key : String) : Option URL :=
  db.urls.find? fun u => u.key == key

/-- Embedding of `crud.get_db_url_by_secret_key`. -/
def get_db_url_by_secret_key (db : DB) (secret_key : String) : Option URL :=
  db.urls.find? fun u => u.secret_key == secret_key

/-- Embedding of `crud.update_db_clicks`: `db_url.clicks += 1` then
commit; the row with the tracked object's primary key is updated. -/
def update_db_clicks (db : DB) (db_url : URL) : DB × URL :=
  let updated := { db_url with clicks := db_url.clicks + 1 }
  ({ db with urls := db.urls.map fun v => if v.id == db_url.id then updated else v },
   updated)

/-- Embedding of `crud.deactivate_db_url`: `db_url.is_active = False`
then commit. -/
def deactivate_db_url (db : DB) (db_url : URL) : DB × URL :=
  let updated := { db_url with is_active := false }
  ({ db with urls := db.urls.map fun v => if v.id == db_url.id then updated else v },
   updated)

/-- Embedding of `crud.delete_db_url`: `db.delete(db_url)` then commit;
the row with the tracked object's primary key is removed. -/
def delete_db_url (db : DB) (db_url : URL) : DB × URL :=
  ({ db with urls := db.urls.filter fun v => !(v.id == db_url.id) }, db_url)

/-- Embedding of `crud.get_and_increment_clicks`: fetch by short key,
increment clicks only if found and active, else return `none` with the
store untouched. -/
def get_and_increment_clicks (db : DB) (key : String) : DB × Option URL :=
  match get_db_url_by_key db key with
  | some db_url =>
    if db_url.is_active then
      let r := update_db_clicks db db_url
      (r.1, some r.2)
    else (db, none)
  | none => (db, none)

/-- Embedding of `crud.get_and_deactivate_url`: fetch by secret key,
deactivate only if `db_url.owner_id == owner_id` (a NULL owner never
equals a caller id), else return `none` with the store untouched. -/
def get_and_deactivate_url (db : DB) (secret_key : String) (owner_id : Nat) :
    DB × Option URL :=
  match get_db_url_by_secret_key db secret_key with
  | some db_url =>
    if db_url.owner_id == some owner_id then
      let r := deactivate_db_url db db_url
      (r.1, some r.2)
    else (db, none)
  | none => (db, none)

/-- Embedding of `crud.get_and_delete_url`: fetch by secret key, delete
only if `db_url.owner_id == owner_id`, else return `none` with the
store untouched. -/
def get_and_delete_url (db : DB) (secret_key : String) (owner_id : Nat) :
    DB × Option URL :=
  match get_db_url_by_secret_key db secret_key with
  | some db_url =>
    if db_url.owner_id == some owner_id then
      let r := delete_db_url db db_url
      (r.1, some r.2)
    else (db, none)
  | none => (db, none)

/-- The generate-then-check retry loop of `crud.create_db_url`,
made total with explicit fuel: `gen i` is the `i`-th output of the
CSPRNG (`secrets.token_urlsafe`), and the loop returns the first
candidate not already `used`.  The source loop is unbounded
(`while True`); exhausting the fuel models a run in which every drawn
candidate collided. -/
def firstFresh (fuel : Nat) (gen : Nat → String) (used : String → Bool) (i : Nat) :
    Option String :=
  match fuel with
  | 0 => none
  | fuel + 1 =>
    let k := gen i
    if used k then firstFresh fuel gen used (i + 1) else some k

/-- Embedding of `crud.create_db_url`: draw a short key until it is
absent from the store, then a secret key `key ++ "_" ++ suffix` until
it is absent, then insert the row with the model defaults
`is_active = true`, `clicks = 0`.  `genKey` and `genSuffix` are the
random streams for `generate_random_key()` and
`generate_random_key(8)`; `newId` stands for the `uuid4()` id. -/
def create_db_url (db : DB) (target_url : String) (owner_id : Option Nat)
    (newId : Nat) (fuel : Nat) (genKey genSuffix : Nat → String) :
    Option (DB × URL) :=
  match firstFresh fuel genKey (fun k => (get_db_url_by_key db k).isSome) 0 with
  | none => none
  | some key =>
    match firstFresh fuel (fun i => key ++ "_" ++ genSuffix i)
        (fun sk => (get_db_url_by_secret_key db sk).isSome) 0 with
    | none => none
    | some secret_key =>
      let db_url : URL :=
        { id := newId
          key := key
          secret_key := secret_key
          target_url := target_url
          is_active := true
          clicks := 0
          owner_id := owner_id }
      some ({ db with urls := db.urls ++ [db_url] }, db_url)

/-! ## auth.py — token service and authentication -/

/-- Model of the `SECRET_KEY` environment configuration of auth.py
(required at startup; immutable for the process lifetime). -/
def SECRET_KEY : String := "server-signing-secret"

/-- Model of the `ALGORITHM` environment configuration of auth.py. -/
def ALGORITHM : String := "HS256"

/-- Default token TTL in minutes (`ACCESS_TOKEN_EXPIRE_MINUTES`,
defaulting to 30 in auth.py). -/
def ACCESS_TOKEN_EXPIRE_MINUTES : Nat := 30

/-- Model of a JWT produced by `jose.jwt.encode`: the claims (`sub`
and `exp`, the only ones auth.py sets) together with the key and
algorithm it was signed with.  Signature verification is modelled as
equality of the signing key and algorithm with the verifier's. -/
structure Token where
  sub : Option String
  exp : Nat
  signed_key : String
  signed_alg : String
  deriving Repr, DecidableEq

/-- Embedding of `auth.create_access_token`: expiry is `utcnow()` plus
the given delta, or plus the configured default TTL when no delta is
given; the payload keeps the `sub` claim of `data`.  Times are seconds
since epoch; `now` is `datetime.utcnow()` at issuance. -/
def create_access_token (sub : Option String) (now : Nat)
    (expires_delta : Option Nat) : Token :=
  let expire :=
    match expires_delta with
    | some delta => now + delta
    | none => now + ACCESS_TOKEN_EXPIRE_MINUTES * 60
  { sub := sub, exp := expire, signed_key := SECRET_KEY, signed_alg := ALGORITHM }

/-- Model of `jose.jwt.decode token SECRET_KEY algorithms=[ALGORITHM]`:
returns the payload when the signature verifies under the same key and
algorithm and the token is not expired (jose raises
`ExpiredSignatureError` when `exp < now`), and `none` (a `JWTError`)
otherwise. -/
def jwt_decode (t : Token) (key : String) (alg : String) (now : Nat) :
    Option (Option String) :=
  if t.signed_key = key ∧ t.signed_alg = alg ∧ now ≤ t.exp then
    some t.sub
  else
    none

/-- Embedding of `auth.get_current_user`: decode the token (any
`JWTError` becomes the credentials error `none`), reject a missing
`sub` claim, then look the subject up by email; an unknown subject is
also the credentials error. -/
def get_current_user (db : DB) (token : Token) (now : Nat) : Option User :=
  match jwt_decode token SECRET_KEY ALGORITHM now with
  | none => none
  | some none => none
  | some (some username) => get_user_by_username db username

/-- Embedding of `auth.authenticate_user`: unknown identifier, failed
password verification and inactive account all return `None`. -/
def authenticate_user (db : DB) (username : String) (password : String) :
    Option User :=
  match get_user_by_username db username with
  | none => none
  | some user =>
    if !(verify_password password user.hashed_password) then none
    else if !(user.is_active) then none
    else some user

/-! ## routers.py — route handlers -/

/-- Outcomes of `POST /register` (routers.register_user): 201 with the
created user, 400 "Username already registered", 400 "Email already
registered", or an unhandled store `IntegrityError` (HTTP 500). -/
inductive RegisterResult where
  | created (user : User)
  | badRequestUsername
  | badRequestEmail
  | internalError
  deriving Repr, DecidableEq

/-- Embedding of `routers.register_user`: first the router's own
duplicate check — which passes `user.username` to
`crud.get_user_by_username`, a function that filters on the email
column — then `crud.create_user`, whose `ValueError` is mapped to the
400 email response and whose store `IntegrityError` propagates
unhandled. -/
def register_user (db : DB) (user : UserCreate) (newId : Nat) :
    DB × RegisterResult :=
  match get_user_by_username db user.username with
  | some _ => (db, RegisterResult.badRequestUsername)
  | none =>
    match create_user db user newId with
    | Except.ok (db2, created_user) => (db2, RegisterResult.created created_user)
    | Except.error CreateUserError.emailRegistered =>
      (db, RegisterResult.badRequestEmail)
    | Except.error CreateUserError.integrityError =>
      (db, RegisterResult.internalError)

/-- Outcomes of `POST /token` (routers.login_for_access_token): 200
with a bearer token, or 401 "Incorrect username or password". -/
inductive LoginResult where
  | token (access_token : Token)
  | unauthorized
  deriving Repr, DecidableEq

/-- Embedding of `routers.login_for_access_token`: authenticate, and on
any failure raise the single 401 response; on success issue a token
whose `sub` is the user's email, with the configured TTL. -/
def login_for_access_token (db : DB) (username : String) (password : String)
    (now : Nat) : LoginResult :=
  match authenticate_user db username password with
  | none => LoginResult.unauthorized
  | some user =>
    LoginResult.token
      (create_access_token (some user.email) now
        (some (ACCESS_TOKEN_EXPIRE_MINUTES * 60)))

/-- Outcomes of `GET /{short_key}` (routers.forward_to_target_url):
307 redirect to the target, 404 "Short URL not found", or the
distinguishable 404 "URL is deactivated". -/
inductive RedirectResult where
  | redirect (target_url : String)
  | notFound
  | deactivated
  deriving Repr, DecidableEq

/-- Embedding of `routers.forward_to_target_url`: combined
fetch-and-increment; on `None`, re-fetch to distinguish an existing
but inactive key ("URL is deactivated") from a missing one ("Short URL
not found"). -/
def forward_to_target_url (db : DB) (short_key : String) : DB × RedirectResult :=
  let r := get_and_increment_clicks db short_key
  match r.2 with
  | some db_url => (r.1, RedirectResult.redirect db_url.target_url)
  | none =>
    match get_db_url_by_key r.1 short_key with
    | some check_url =>
      if !(check_url.is_active) then (r.1, RedirectResult.deactivated)
      else (r.1, RedirectResult.notFound)
    | none => (r.1, RedirectResult.notFound)

/-- Embedding of `schemas.URLInfo`, the response model that extends
`schemas.URL` with the `secret_key` field ("Includes the secret_key
for management"). -/
structure URLInfo where
  id : Nat
  key : String
  target_url : String
  is_active : Bool
  clicks : Nat
  owner_id : Option Nat
  secret_key : String
  deriving Repr, DecidableEq

/-- The FastAPI conversion of a `models.URL` ORM row to the
`schemas.URLInfo` response model. -/
def to_url_info (u : URL) : URLInfo :=
  { id := u.id
    key := u.key
    target_url := u.target_url
    is_active := u.is_active
    clicks := u.clicks
    owner_id := u.owner_id
    secret_key := u.secret_key }

/-- Outcomes of `GET /url/{short_key}` (routers.get_url_details): 200
with a `URLInfo` body, 404 "Short URL not found", or 404 "URL is
deactivated". -/
inductive DetailsResult where
  | ok (info : URLInfo)
  | notFound
  | deactivated
  deriving Repr, DecidableEq

/-- Embedding of `routers.get_url_details` (`GET /url/{short_key}`).
The route declares no authentication dependency: its only inputs are
the store and the public short key, so it is callable by an anonymous
caller; an active URL is returned as `URLInfo`, secret key included. -/
def get_url_details (db : DB) (short_key : String) : DetailsResult :=
  match get_db_url_by_key db short_key with
  | none => DetailsResult.notFound
  | some db_url =>
    if !(db_url.is_active) then DetailsResult.deactivated
    else DetailsResult.ok (to_url_info db_url)

/-! ## Operations for the temporal claim

Every operation of the service that can touch the `urls` table,
packaged as a step function, for stating that a deactivated URL never
becomes active again. -/

/-- One request against the URL table: a redirect
(`forward_to_target_url`), an owner deactivation (`DELETE /admin`), an
owner deletion (`get_and_delete_url`), or a creation (`POST /url`,
with its random streams and fuel). -/
inductive Op where
  | redirect (key : String)
  | deactivate (secret_key : String) (requester : Nat)
  | delete (secret_key : String) (requester : Nat)
  | create (target_url : String) (owner_id : Option Nat) (newId : Nat)
      (fuel : Nat) (genKey : Nat → String) (genSuffix : Nat → String)

/-- The store after executing one operation (a failed operation leaves
the store unchanged, as the crud combinators do). -/
def step (db : DB) : Op → DB
  | Op.redirect key => (get_and_increment_clicks db key).1
  | Op.deactivate sk r => (get_and_deactivate_url db sk r).1
  | Op.delete sk r => (get_and_delete_url db sk r).1
  | Op.create t o newId fuel g1 g2 =>
    match create_db_url db t o newId fuel g1 g2 with
    | some (db2, _) => db2
    | none => db

/-! ## Concrete store instances used to exercise the theorems -/

/-- A registered, active user (the spec's example user alice). -/
def aliceUser : User :=
  { id := 1
    username := "alice"
    email := "alice@example.com"
    hashed_password := get_password_hash "wonderland"
    is_active := true }

/-- A registered but deactivated user account. -/
def carolUser : User :=
  { id := 3
    username := "carol"
    email := "carol@example.com"
    hashed_password := get_password_hash "pw-carol"
    is_active := false }

/-- An active URL owned by alice. -/
def urlOwned : URL :=
  { id := 10
    key := "Ab12Cd"
    secret_key := "Ab12Cd_XyZ98abc"
    target_url := "https://example.com"
    is_active := true
    clicks := 0
    owner_id := some 1 }

/-- A deactivated URL owned by alice. -/
def urlInactive : URL :=
  { id := 11
    key := "Qq77Rr"
    secret_key := "Qq77Rr_k3PtVw9z"
    target_url := "https://example.org"
    is_active := false
    clicks := 5
    owner_id := some 1 }

/-- An anonymous (null-owner) active URL. -/
def urlAnon : URL :=
  { id := 12
    key := "An00On"
    secret_key := "An00On_r4NdSfx7"
    target_url := "https://example.net"
    is_active := true
    clicks := 2
    owner_id := none }

/-- A small store with two users and three URLs. -/
def exampleDb : DB :=
  { users := [aliceUser, carolUser]
    urls := [urlOwned, urlInactive, urlAnon] }

/-- A constant key stream yielding a short key absent from
`exampleDb`, for exercising creation. -/
def genKeyW : Nat → String := fun _ => "Ne3wKy"

/-- A constant stream for the secret-key random part. -/
def genSufW : Nat → String := fun _ => "Wx5Tq2Lm"

/-- The URL record produced by creating against `exampleDb` with the
streams above. -/
def recW : URL :=
  { id := 99
    key := "Ne3wKy"
    secret_key := "Ne3wKy_Wx5Tq2Lm"
    target_url := "https://example.edu"
    is_active := true
    clicks := 0
    owner_id := some 1 }

/-- The store after that creation. -/
def dbAfterCreate : DB :=
  { users := exampleDb.users
    urls := exampleDb.urls ++ [recW] }

/-! ## Helper lemmas -/

/-- The pairwise-distinctness relation of `DB.WF` is symmetric. -/
theorem wf_rel_symm :
    Symmetric fun a b : URL =>
      a.id ≠ b.id ∧ a.key ≠ b.key ∧ a.secret_key ≠ b.secret_key :=
  fun _ _ h => ⟨Ne.symm h.1, Ne.symm h.2.1, Ne.symm h.2.2⟩

/-- In a well-formed store, rows are identified by their primary key. -/
theorem wf_eq_of_id_eq {db : DB} (hwf : DB.WF db) {u v : URL}
    (hu : u ∈ db.urls) (hv : v ∈ db.urls) (h : v.id = u.id) : v = u := by
  by_contra hne
  exact (hwf.forall wf_rel_symm hv hu hne).1 h

/-- In a well-formed store, rows are identified by their short key. -/
theorem wf_eq_of_key_eq {db : DB} (hwf : DB.WF db) {u v : URL}
    (hu : u ∈ db.urls) (hv : v ∈ db.urls) (h : v.key = u.key) : v = u := by
  by_contra hne
  exact (hwf.forall wf_rel_symm hv hu hne).2.1 h

/-- A candidate returned by the generate-then-check loop is not in use. -/
theorem firstFresh_not_used (fuel : Nat) (gen : Nat → String)
    (used : String → Bool) :
    ∀ i k, firstFresh fuel gen used i = some k → used k = false := by
  induction fuel with
  | zero => intro i k h; simp [firstFresh] at h
  | succ n ih =>
    intro i k h
    simp only [firstFresh] at h
    by_cases hu : used (gen i) = true
    · rw [if_pos hu] at h
      exact ih (i + 1) k h
    · rw [if_neg hu] at h
      cases h
      exact Bool.eq_false_iff.mpr hu

/-- Replacing (by id) a row `w` with a row `w'` of the same short key
leaves lookups of every other short key unchanged, provided `w` is the
only row with its id. -/
theorem find?_map_upd_of_key_ne (w w' : URL) (k2 : String)
    (hk : w'.key = w.key) (hne : w.key ≠ k2) :
    ∀ l : List URL, (∀ v ∈ l, v.id = w.id → v = w) →
      (l.map fun v => if v.id == w.id then w' else v).find?
          (fun v => v.key == k2)
        = l.find? (fun v => v.key == k2) := by
  intro l
  induction l with
  | nil => intro _; rfl
  | cons a l ih =>
    intro hid
    have htail := ih fun v hv => hid v (List.mem_cons_of_mem a hv)
    by_cases ha : a.id = w.id
    · have haw : a = w := hid a (List.mem_cons_self a l) ha
      have h1 : (if a.id == w.id then w' else a) = w' := by simp [ha]
      have h2 : (w'.key == k2) = false := by
        rw [hk]; exact beq_eq_false_iff_ne.mpr hne
      have h3 : (a.key == k2) = false := by
        rw [haw]; exact beq_eq_false_iff_ne.mpr hne
      simp only [List.map_cons, h1, List.find?_cons, h2, h3]
      exact htail
    · have h1 : (if a.id == w.id then w' else a) = a := by simp [ha]
      simp only [List.map_cons, h1, List.find?_cons]
      cases hak : a.key == k2 with
      | true => rfl
      | false => exact htail

/-- Replacing (by id) the row `w` found under key `k` with a row `w'`
of the same key makes the lookup of `k` return `w'`, provided `w` is
the only row with its id. -/
theorem find?_map_upd_self (w w' : URL) (k : String) (hk : w'.key = w.key) :
    ∀ l : List URL, l.find? (fun v => v.key == k) = some w →
      (∀ v ∈ l, v.id = w.id → v = w) →
      (l.map fun v => if v.id == w.id then w' else v).find?
          (fun v => v.key == k)
        = some w' := by
  intro l
  induction l with
  | nil => intro h _; simp at h
  | cons a l ih =>
    intro hfind hid
    cases hak : a.key == k with
    | true =>
      simp only [List.find?_cons, hak] at hfind
      have haw : a = w := by injection hfind
      have h1 : (if a.id == w.id then w' else a) = w' := by simp [haw]
      have h2 : (w'.key == k) = true := by rw [hk, ← haw]; exact hak
      simp only [List.map_cons, h1, List.find?_cons, h2]
    | false =>
      simp only [List.find?_cons, hak] at hfind
      have hwk0 := List.find?_some hfind
      have hwk : (w.key == k) = true := hwk0
      have ha : ¬ (a.id = w.id) := by
        intro hida
        have haw := hid a (List.mem_cons_self a l) hida
        rw [haw, hwk] at hak
        exact Bool.noConfusion hak
      have h1 : (if a.id == w.id then w' else a) = a := by simp [ha]
      simp only [List.map_cons, h1, List.find?_cons, hak]
      exact ih hfind fun v hv => hid v (List.mem_cons_of_mem a hv)

/-- Replacing (by id) the row `u` with itself is the identity on the
table, provided `u` is the only row with its id. -/
theorem map_upd_self (u : URL) :
    ∀ l : List URL, (∀ v ∈ l, v.id = u.id → v = u) →
      (l.map fun v => if v.id == u.id then u else v) = l := by
  intro l
  induction l with
  | nil => intro _; rfl
  | cons a l ih =>
    intro hid
    have htail := ih fun v hv => hid v (List.mem_cons_of_mem a hv)
    by_cases ha : a.id = u.id
    · have haw : a = u := hid a (List.mem_cons_self a l) ha
      have h1 : (if a.id == u.id then u else a) = a := by simp [haw]
      rw [List.map_cons, h1, htail]
    · have h1 : (if a.id == u.id then u else a) = a := by simp [ha]
      rw [List.map_cons, h1, htail]

/-- An option whose `isSome` is `false` is `none`. -/
theorem eq_none_of_isSome_false {α : Type} {o : Option α}
    (h : o.isSome = false) : o = none := by
  cases o with
  | none => rfl
  | some v => simp at h

/-- Structure of a successful `create_db_url` run: the new row is
appended, its keys were absent from the store, and it carries the
model defaults. -/
theorem create_db_url_spec (db : DB) (t : String) (o : Option Nat)
    (newId fuel : Nat) (g1 g2 : Nat → String) (db2 : DB) (rec : URL)
    (h : create_db_url db t o newId fuel g1 g2 = some (db2, rec)) :
    db2.urls = db.urls ++ [rec] ∧ db2.users = db.users ∧
    get_db_url_by_key db rec.key = none ∧
    get_db_url_by_secret_key db rec.secret_key = none ∧
    rec.is_active = true ∧ rec.clicks = 0 ∧
    rec.target_url = t ∧ rec.owner_id = o := by
  unfold create_db_url at h
  split at h
  · exact absurd h (by simp)
  · rename_i key hkey
    split at h
    · exact absurd h (by simp)
    · rename_i sk hsk
      simp only [Option.some.injEq, Prod.mk.injEq] at h
      obtain ⟨hdb2, hrec⟩ := h
      subst hdb2
      subst hrec
      refine ⟨rfl, rfl, ?_, ?_, rfl, rfl, rfl, rfl⟩
      · exact eq_none_of_isSome_false (firstFresh_not_used fuel g1 _ 0 key hkey)
      · exact eq_none_of_isSome_false
          (firstFresh_not_used fuel (fun i => key ++ "_" ++ g2 i) _ 0 sk hsk)

/-! ## Claims -/

/-- C1: the claim "no operation callable without the creator's
authenticated identity returns a result containing the URL's secret
key" is FALSE of the code: `GET /url/{short_key}`
(routers.get_url_details) declares no authentication dependency — its
embedding takes only the store and the public short key — yet
answers with a `schemas.URLInfo`, which includes `secret_key`.  At the
store `exampleDb`, an anonymous lookup of the public key `Ab12Cd`
returns alice's secret key `Ab12Cd_XyZ98abc`. -/
theorem c1_secret_key_exposed_to_unauthenticated_lookup :
    get_url_details exampleDb "Ab12Cd" = DetailsResult.ok (to_url_info urlOwned) ∧
    (to_url_info urlOwned).secret_key = "Ab12Cd_XyZ98abc" := by
  constructor <;> rfl

/-- C3: for every secret key and requester, if the requester's id does
not equal the stored owner reference of the matching URL — including
the anonymous null-owner case and the no-match case — then
`get_and_deactivate_url` and `get_and_delete_url` both fail (return
`none`) and leave the store unchanged. -/
theorem c3_non_owner_mutation_rejected (db : DB) (secret_key : String)
    (rid : Nat)
    (h : ∀ u, get_db_url_by_secret_key db secret_key = some u →
      u.owner_id ≠ some rid) :
    get_and_deactivate_url db secret_key rid = (db, none) ∧
    get_and_delete_url db secret_key rid = (db, none) := by
  refine ⟨?_, ?_⟩
  · unfold get_and_deactivate_url
    cases hc : get_db_url_by_secret_key db secret_key with
    | none => rfl
    | some u => simp [beq_eq_false_iff_ne.mpr (h u hc)]
  · unfold get_and_delete_url
    cases hc : get_db_url_by_secret_key db secret_key with
    | none => rfl
    | some u => simp [beq_eq_false_iff_ne.mpr (h u hc)]

/-- Witness for C3: alice (id 1) cannot deactivate or delete the
anonymous URL through its secret key; the store is untouched. -/
theorem c3_witness :
    get_and_deactivate_url exampleDb "An00On_r4NdSfx7" 1 = (exampleDb, none) ∧
    get_and_delete_url exampleDb "An00On_r4NdSfx7" 1 = (exampleDb, none) :=
  c3_non_owner_mutation_rejected exampleDb "An00On_r4NdSfx7" 1 (by
    intro u hu
    have h2 : (some urlAnon : Option URL) = some u := hu
    injection h2 with h3
    rw [← h3]
    decide)

/-- C5: a token issued for user U (subject = U's email) resolves to
exactly U while the current time is within the expiry, and resolution
after the expiry always fails with the credentials error, provided the
store still maps U's email to U. -/
theorem c5_token_resolves_to_issuer_until_expiry (db : DB) (user : User)
    (issued delta now : Nat)
    (hdb : get_user_by_username db user.email = some user) :
    (now ≤ issued + delta →
      get_current_user db
        (create_access_token (some user.email) issued (some delta)) now
        = some user) ∧
    (issued + delta < now →
      get_current_user db
        (create_access_token (some user.email) issued (some delta)) now
        = none) := by
  constructor
  · intro hle
    simp [get_current_user, jwt_decode, create_access_token, hle, hdb]
  · intro hlt
    simp [get_current_user, jwt_decode, create_access_token,
      Nat.not_le.mpr hlt]

/-- Witness for C5: a token for alice issued at 1000 with a 60-second
TTL resolves to alice at time 1030 and fails at time 1100. -/
theorem c5_witness :
    get_current_user exampleDb
        (create_access_token (some "alice@example.com") 1000 (some 60)) 1030
      = some aliceUser ∧
    get_current_user exampleDb
        (create_access_token (some "alice@example.com") 1000 (some 60)) 1100
      = none :=
  ⟨(c5_token_resolves_to_issuer_until_expiry exampleDb aliceUser 1000 60 1030
      (by rfl)).1 (by decide),
   (c5_token_resolves_to_issuer_until_expiry exampleDb aliceUser 1000 60 1100
      (by rfl)).2 (by decide)⟩

/-- C6: a redirect on a never-created short key yields the plain
not-found outcome, and a redirect on an existing but deactivated key
yields the distinguishable deactivated outcome, never plain
not-found; neither touches the store. -/
theorem c6_redirect_notfound_vs_deactivated (db : DB) (short_key : String) :
    (get_db_url_by_key db short_key = none →
      forward_to_target_url db short_key = (db, RedirectResult.notFound)) ∧
    (∀ u, get_db_url_by_key db short_key = some u → u.is_active = false →
      forward_to_target_url db short_key = (db, RedirectResult.deactivated) ∧
      (forward_to_target_url db short_key).2 ≠ RedirectResult.notFound) := by
  constructor
  · intro h
    simp [forward_to_target_url, get_and_increment_clicks, h]
  · intro u hu hia
    have hmain : forward_to_target_url db short_key
        = (db, RedirectResult.deactivated) := by
      simp [forward_to_target_url, get_and_increment_clicks, hu, hia]
    refine ⟨hmain, ?_⟩
    rw [hmain]
    simp

/-- Witness for C6: a redirect of the never-created key `NoSuchKy`
yields not-found, and of the deactivated key `Qq77Rr` yields the
deactivated outcome. -/
theorem c6_witness :
    forward_to_target_url exampleDb "NoSuchKy"
      = (exampleDb, RedirectResult.notFound) ∧
    forward_to_target_url exampleDb "Qq77Rr"
      = (exampleDb, RedirectResult.deactivated) :=
  ⟨(c6_redirect_notfound_vs_deactivated exampleDb "NoSuchKy").1 (by rfl),
   ((c6_redirect_notfound_vs_deactivated exampleDb "Qq77Rr").2 urlInactive
      (by rfl) (by rfl)).1⟩

/-- C7: the authenticate operation returns the same failure result
(`none`, surfaced by the login route as the single 401 response)
whether the login identifier does not exist, the password does not
verify, or the account is inactive; any two failing attempts are
indistinguishable at the login route. -/
theorem c7_authentication_failure_uniform (db : DB)
    (username password : String) :
    (get_user_by_username db username = none →
      authenticate_user db username password = none) ∧
    (∀ user, get_user_by_username db username = some user →
      verify_password password user.hashed_password = false →
      authenticate_user db username password = none) ∧
    (∀ user, get_user_by_username db username = some user →
      user.is_active = false →
      authenticate_user db username password = none) ∧
    (∀ (db2 : DB) (u2 p2 : String) (now now2 : Nat),
      authenticate_user db username password = none →
      authenticate_user db2 u2 p2 = none →
      login_for_access_token db username password now
        = login_for_access_token db2 u2 p2 now2) := by
  refine ⟨?_, ?_, ?_, ?_⟩
  · intro h
    simp [authenticate_user, h]
  · intro user hu hv
    simp [authenticate_user, hu, hv]
  · intro user hu hi
    by_cases hv : verify_password password user.hashed_password = true
    · simp [authenticate_user, hu, hv, hi]
    · simp [authenticate_user, hu, Bool.eq_false_iff.mpr hv]
  · intro db2 u2 p2 now now2 h1 h2
    simp [login_for_access_token, h1, h2]

/-- Witness for C7: an unknown identifier, a wrong password for alice,
and carol's inactive account all authenticate to `none`, and the login
route's response is identical for two of these failing attempts. -/
theorem c7_witness :
    authenticate_user exampleDb "ghost@example.com" "pw" = none ∧
    authenticate_user exampleDb "alice@example.com" "wrongpw" = none ∧
    authenticate_user exampleDb "carol@example.com" "pw-carol" = none ∧
    login_for_access_token exampleDb "ghost@example.com" "pw" 0
      = login_for_access_token exampleDb "carol@example.com" "pw-carol" 99 := by
  have hwhole := c7_authentication_failure_uniform exampleDb
    "ghost@example.com" "pw"
  have h1 : authenticate_user exampleDb "ghost@example.com" "pw" = none :=
    hwhole.1 (by rfl)
  have h2 : authenticate_user exampleDb "alice@example.com" "wrongpw" = none :=
    (c7_authentication_failure_uniform exampleDb "alice@example.com"
      "wrongpw").2.1 aliceUser (by rfl) (by decide)
  have h3 : authenticate_user exampleDb "carol@example.com" "pw-carol" = none :=
    (c7_authentication_failure_uniform exampleDb "carol@example.com"
      "pw-carol").2.2.1 carolUser (by rfl) (by rfl)
  exact ⟨h1, h2, h3,
    hwhole.2.2.2 exampleDb "carol@example.com" "pw-carol" 0 99 h1 h3⟩

/-- C10: owner deactivation is idempotent and not restricted to the
active state: when the stored owner equals the requester, calling
deactivate on an already-deactivated URL succeeds again and leaves the
row — and the whole store — exactly as it was. -/
theorem c10_deactivate_idempotent (db : DB) (secret_key : String)
    (rid : Nat) (u : URL) (hwf : DB.WF db)
    (h : get_db_url_by_secret_key db secret_key = some u)
    (ho : u.owner_id = some rid) (hia : u.is_active = false) :
    get_and_deactivate_url db secret_key rid = (db, some u) := by
  have hu : u ∈ db.urls := List.mem_of_find?_eq_some h
  have hid : ∀ v ∈ db.urls, v.id = u.id → v = u :=
    fun v hv hvid => wf_eq_of_id_eq hwf hu hv hvid
  have hupd : { u with is_active := false } = u := by rw [← hia]
  have hcond : (u.owner_id == some rid) = true := by
    rw [ho]; exact beq_self_eq_true _
  have step1 : deactivate_db_url db u
      = ({ db with urls := db.urls.map fun v => if v.id == u.id then u else v },
         u) := by
    unfold deactivate_db_url
    rw [hupd]
  unfold get_and_deactivate_url
  rw [h]
  show (if (u.owner_id == some rid) = true then
      ((deactivate_db_url db u).1, some (deactivate_db_url db u).2)
    else (db, none)) = (db, some u)
  rw [if_pos hcond, step1]
  show ({ db with urls := db.urls.map fun v => if v.id == u.id then u else v },
      some u) = (db, some u)
  rw [map_upd_self u db.urls hid]

/-- Witness for C10: alice deactivating her already-deactivated URL
succeeds again and changes nothing. -/
theorem c10_witness :
    get_and_deactivate_url exampleDb "Qq77Rr_k3PtVw9z" 1
      = (exampleDb, some urlInactive) :=
  c10_deactivate_idempotent exampleDb "Qq77Rr_k3PtVw9z" 1 urlInactive
    (by unfold DB.WF; decide) (by rfl) (by rfl) (by rfl)

/-- C8: a successful creation produces a row whose short key and
secret key are each distinct from the corresponding keys of every row
existing at creation time, and the new row is persisted (appended to
the table) in the active state with zero clicks. -/
theorem c8_create_unique_keys_active_zero_clicks (db : DB) (t : String)
    (o : Option Nat) (newId fuel : Nat) (g1 g2 : Nat → String)
    (db2 : DB) (rec : URL)
    (h : create_db_url db t o newId fuel g1 g2 = some (db2, rec)) :
    (∀ v ∈ db.urls, v.key ≠ rec.key ∧ v.secret_key ≠ rec.secret_key) ∧
    rec.is_active = true ∧ rec.clicks = 0 ∧
    rec ∈ db2.urls ∧ db2.urls = db.urls ++ [rec] := by
  obtain ⟨hurls, husers, hkey, hsk, hact, hclk, -, -⟩ :=
    create_db_url_spec db t o newId fuel g1 g2 db2 rec h
  unfold get_db_url_by_key at hkey
  unfold get_db_url_by_secret_key at hsk
  refine ⟨?_, hact, hclk, ?_, hurls⟩
  · intro v hv
    constructor
    · intro hvk
      exact List.find?_eq_none.mp hkey v hv (beq_iff_eq.mpr hvk)
    · intro hvs
      exact List.find?_eq_none.mp hsk v hv (beq_iff_eq.mpr hvs)
  · rw [hurls]
    exact List.mem_append_right _ (List.mem_singleton.mpr rfl)

/-- Witness for C8: creating against `exampleDb` with the concrete
streams yields `recW`, whose keys clash with no existing row (checked
against `urlOwned`), active with zero clicks, persisted. -/
theorem c8_witness :
    (urlOwned.key ≠ recW.key ∧ urlOwned.secret_key ≠ recW.secret_key) ∧
    recW.is_active = true ∧ recW.clicks = 0 ∧ recW ∈ dbAfterCreate.urls :=
  have h := c8_create_unique_keys_active_zero_clicks exampleDb
    "https://example.edu" (some 1) 99 1 genKeyW genSufW dbAfterCreate recW
    (by decide)
  ⟨h.1 urlOwned (by decide), h.2.1, h.2.2.1, h.2.2.2.1⟩

/-- C4: a successful redirect (existing, active short key) increments
that URL's click counter by exactly 1 and leaves every other short
key's row unchanged; a redirect attempt on a deactivated or
nonexistent key leaves the whole store unchanged. -/
theorem c4_redirect_click_semantics (db : DB) (key : String)
    (hwf : DB.WF db) :
    (∀ u, get_db_url_by_key db key = some u → u.is_active = true →
      (get_and_increment_clicks db key).2
        = some { u with clicks := u.clicks + 1 } ∧
      get_db_url_by_key (get_and_increment_clicks db key).1 key
        = some { u with clicks := u.clicks + 1 } ∧
      ∀ k2, k2 ≠ key →
        get_db_url_by_key (get_and_increment_clicks db key).1 k2
          = get_db_url_by_key db k2) ∧
    ((∀ u, get_db_url_by_key db key = some u → u.is_active = false) →
      get_and_increment_clicks db key = (db, none)) := by
  constructor
  · intro u hu hact
    have humem : u ∈ db.urls := List.mem_of_find?_eq_some hu
    have hid : ∀ v ∈ db.urls, v.id = u.id → v = u :=
      fun v hv hvid => wf_eq_of_id_eq hwf humem hv hvid
    have hstep : get_and_increment_clicks db key
        = ({ db with urls := db.urls.map fun v =>
              if v.id == u.id then { u with clicks := u.clicks + 1 } else v },
           some { u with clicks := u.clicks + 1 }) := by
      unfold get_and_increment_clicks
      rw [hu]
      show (if u.is_active = true then
          ((update_db_clicks db u).1, some (update_db_clicks db u).2)
        else (db, none)) = _
      rw [if_pos hact]
      rfl
    refine ⟨?_, ?_, ?_⟩
    · rw [hstep]
    · rw [hstep]
      exact find?_map_upd_self u { u with clicks := u.clicks + 1 } key rfl
        db.urls hu hid
    · intro k2 hk2
      rw [hstep]
      have h0 := List.find?_some hu
      have h1 : (u.key == key) = true := h0
      have hne : u.key ≠ k2 := by
        intro hcontra
        exact hk2 (by rw [← hcontra]; exact beq_iff_eq.mp h1)
      exact find?_map_upd_of_key_ne u { u with clicks := u.clicks + 1 } k2 rfl
        hne db.urls hid
  · intro hina
    unfold get_and_increment_clicks
    cases hc : get_db_url_by_key db key with
    | none => rfl
    | some u =>
      have hia := hina u hc
      show (if u.is_active = true then
          ((update_db_clicks db u).1, some (update_db_clicks db u).2)
        else (db, none)) = (db, none)
      rw [if_neg]
      intro hcontra
      rw [hia] at hcontra
      exact Bool.noConfusion hcontra

/-- Witness for C4: redirecting alice's active key `Ab12Cd` returns
the row with clicks bumped from 0 to 1, the lookup of `Ab12Cd` in the
new store sees the bumped row, the unrelated key `Qq77Rr` is
untouched, and a redirect of the deactivated key `Qq77Rr` leaves the
store unchanged. -/
theorem c4_witness :
    (get_and_increment_clicks exampleDb "Ab12Cd").2
      = some { urlOwned with clicks := urlOwned.clicks + 1 } ∧
    get_db_url_by_key (get_and_increment_clicks exampleDb "Ab12Cd").1 "Ab12Cd"
      = some { urlOwned with clicks := urlOwned.clicks + 1 } ∧
    get_db_url_by_key (get_and_increment_clicks exampleDb "Ab12Cd").1 "Qq77Rr"
      = get_db_url_by_key exampleDb "Qq77Rr" ∧
    get_and_increment_clicks exampleDb "Qq77Rr" = (exampleDb, none) :=
  have hmain := c4_redirect_click_semantics exampleDb "Ab12Cd"
    (by unfold DB.WF; decide)
  have hsucc := hmain.1 urlOwned (by rfl) (by rfl)
  ⟨hsucc.1, hsucc.2.1, hsucc.2.2 "Qq77Rr" (by decide),
   (c4_redirect_click_semantics exampleDb "Qq77Rr"
      (by unfold DB.WF; decide)).2 (by
        intro u hu
        have h2 : (some urlInactive : Option URL) = some u := hu
        injection h2 with h3
        rw [← h3]
        rfl)⟩

/-- C9: once a URL's active flag is false, no operation of the service
(redirect, deactivate, delete, create) ever makes a row with that
short key active again; and the row only leaves the store through the
delete operation. -/
theorem c9_deactivation_terminal (db : DB) (op : Op) (u : URL)
    (hwf : DB.WF db) (hu : u ∈ db.urls) (hia : u.is_active = false) :
    (∀ v ∈ (step db op).urls, v.key = u.key → v.is_active = false) ∧
    ((∃ v ∈ (step db op).urls, v.key = u.key) ∨
      ∃ sk r, op = Op.delete sk r) := by
  have hkeyeq : ∀ v ∈ db.urls, v.key = u.key → v = u :=
    fun v hv hvk => wf_eq_of_key_eq hwf hu hv hvk
  have hideq : ∀ v ∈ db.urls, v.id = u.id → v = u :=
    fun v hv hvi => wf_eq_of_id_eq hwf hu hv hvi
  cases op with
  | redirect key =>
    cases hc : get_db_url_by_key db key with
    | none =>
      have heq : step db (Op.redirect key) = db := by
        simp [step, get_and_increment_clicks, hc]
      rw [heq]
      refine ⟨?_, Or.inl ⟨u, hu, rfl⟩⟩
      intro v hv hk
      rw [hkeyeq v hv hk]
      exact hia
    | some w =>
      have hwmem : w ∈ db.urls := List.mem_of_find?_eq_some hc
      cases hact : w.is_active with
      | false =>
        have heq : step db (Op.redirect key) = db := by
          simp [step, get_and_increment_clicks, hc, hact]
        rw [heq]
        refine ⟨?_, Or.inl ⟨u, hu, rfl⟩⟩
        intro v hv hk
        rw [hkeyeq v hv hk]
        exact hia
      | true =>
        have hwid : ¬ (u.id = w.id) := by
          intro hcontra
          have hwu := hideq w hwmem hcontra.symm
          rw [hwu, hia] at hact
          exact Bool.noConfusion hact
        have hwu : ¬ (w.key = u.key) := by
          intro hcontra
          have hwu2 := hkeyeq w hwmem hcontra
          rw [hwu2, hia] at hact
          exact Bool.noConfusion hact
        have heq : step db (Op.redirect key)
            = { db with urls := db.urls.map fun v =>
                if v.id == w.id then { w with clicks := w.clicks + 1 }
                else v } := by
          simp [step, get_and_increment_clicks, update_db_clicks, hc, hact]
        rw [heq]
        constructor
        · intro v' hv' hk
          obtain ⟨v, hv, hfv⟩ := List.mem_map.mp hv'
          by_cases hvw : v.id = w.id
          · have hveq : v' = { w with clicks := w.clicks + 1 } := by
              rw [← hfv]; simp [hvw]
            rw [hveq] at hk
            exact absurd hk hwu
          · have hveq : v' = v := by rw [← hfv]; simp [hvw]
            rw [hveq, hkeyeq v hv (hveq ▸ hk)]
            exact hia
        · left
          refine ⟨u, List.mem_map.mpr ⟨u, hu, ?_⟩, rfl⟩
          simp [hwid]
  | deactivate sk r =>
    cases hc : get_db_url_by_secret_key db sk with
    | none =>
      have heq : step db (Op.deactivate sk r) = db := by
        simp [step, get_and_deactivate_url, hc]
      rw [heq]
      refine ⟨?_, Or.inl ⟨u, hu, rfl⟩⟩
      intro v hv hk
      rw [hkeyeq v hv hk]
      exact hia
    | some w =>
      have hwmem : w ∈ db.urls := List.mem_of_find?_eq_some hc
      cases hown : w.owner_id == some r with
      | false =>
        have heq : step db (Op.deactivate sk r) = db := by
          simp [step, get_and_deactivate_url, hc, hown]
        rw [heq]
        refine ⟨?_, Or.inl ⟨u, hu, rfl⟩⟩
        intro v hv hk
        rw [hkeyeq v hv hk]
        exact hia
      | true =>
        have heq : step db (Op.deactivate sk r)
            = { db with urls := db.urls.map fun v =>
                if v.id == w.id then { w with is_active := false }
                else v } := by
          simp [step, get_and_deactivate_url, deactivate_db_url, hc, hown]
        rw [heq]
        constructor
        · intro v' hv' hk
          obtain ⟨v, hv, hfv⟩ := List.mem_map.mp hv'
          by_cases hvw : v.id = w.id
          · have hveq : v' = { w with is_active := false } := by
              rw [← hfv]; simp [hvw]
            rw [hveq]
          · have hveq : v' = v := by rw [← hfv]; simp [hvw]
            rw [hveq, hkeyeq v hv (hveq ▸ hk)]
            exact hia
        · left
          by_cases hbc : u.id = w.id
          · have hwu : w = u := hideq w hwmem hbc.symm
            refine ⟨{ w with is_active := false },
              List.mem_map.mpr ⟨u, hu, ?_⟩, ?_⟩
            · simp [hbc]
            · rw [hwu]
          · refine ⟨u, List.mem_map.mpr ⟨u, hu, ?_⟩, rfl⟩
            simp [hbc]
  | delete sk r =>
    have hsub : ∀ v ∈ (step db (Op.delete sk r)).urls, v ∈ db.urls := by
      cases hc : get_db_url_by_secret_key db sk with
      | none =>
        have heq : step db (Op.delete sk r) = db := by
          simp [step, get_and_delete_url, hc]
        rw [heq]
        intro v hv
        exact hv
      | some w =>
        cases hown : w.owner_id == some r with
        | false =>
          have heq : step db (Op.delete sk r) = db := by
            simp [step, get_and_delete_url, hc, hown]
          rw [heq]
          intro v hv
          exact hv
        | true =>
          have heq : step db (Op.delete sk r)
              = { db with urls := db.urls.filter fun v => !(v.id == w.id) } := by
            simp [step, get_and_delete_url, delete_db_url, hc, hown]
          rw [heq]
          intro v hv
          exact List.mem_of_mem_filter hv
    refine ⟨?_, Or.inr ⟨sk, r, rfl⟩⟩
    intro v hv hk
    rw [hkeyeq v (hsub v hv) hk]
    exact hia
  | create t o newId fuel g1 g2 =>
    cases hc : create_db_url db t o newId fuel g1 g2 with
    | none =>
      have heq : step db (Op.create t o newId fuel g1 g2) = db := by
        simp [step, hc]
      rw [heq]
      refine ⟨?_, Or.inl ⟨u, hu, rfl⟩⟩
      intro v hv hk
      rw [hkeyeq v hv hk]
      exact hia
    | some pr =>
      obtain ⟨db2, rec⟩ := pr
      obtain ⟨hurls, -, hkey, -, -, -, -, -⟩ :=
        create_db_url_spec db t o newId fuel g1 g2 db2 rec hc
      unfold get_db_url_by_key at hkey
      have heq : step db (Op.create t o newId fuel g1 g2) = db2 := by
        simp [step, hc]
      rw [heq]
      constructor
      · intro v hv hk
        rw [hurls] at hv
        rcases List.mem_append.mp hv with hvl | hvr
        · rw [hkeyeq v hvl hk]
          exact hia
        · have hvrec : v = rec := List.mem_singleton.mp hvr
          have hukey := List.find?_eq_none.mp hkey u hu
          rw [hvrec] at hk
          exact absurd (beq_iff_eq.mpr hk.symm) hukey
      · left
        refine ⟨u, ?_, rfl⟩
        rw [hurls]
        exact List.mem_append_left _ hu

/-- Witness for C9: a redirect of alice's active key leaves the
deactivated URL `Qq77Rr` deactivated and present in the store, and
the operation is not a delete. -/
theorem c9_witness :
    (∀ v ∈ (step exampleDb (Op.redirect "Ab12Cd")).urls,
      v.key = urlInactive.key → v.is_active = false) ∧
    ((∃ v ∈ (step exampleDb (Op.redirect "Ab12Cd")).urls,
      v.key = urlInactive.key) ∨
      ∃ sk r, Op.redirect "Ab12Cd" = Op.delete sk r) :=
  c9_deactivation_terminal exampleDb (Op.redirect "Ab12Cd") urlInactive
    (by unfold DB.WF; decide) (by decide) (by rfl)

/-- C2: a registration request whose username or email duplicates an
existing user's always fails — through the router's 400 responses or
the store's unique-constraint `IntegrityError` — and the store is
left unchanged: no user record is created. -/
theorem c2_duplicate_registration_rejected (db : DB) (user : UserCreate)
    (newId : Nat)
    (h : (∃ u ∈ db.users, u.username = user.username) ∨
      (∃ u ∈ db.users, u.email = user.email)) :
    (register_user db user newId).1 = db ∧
    ∀ u, (register_user db user newId).2 ≠ RegisterResult.created u := by
  cases hr : get_user_by_username db user.username with
  | some w =>
    constructor
    · simp [register_user, hr]
    · intro u
      simp [register_user, hr]
  | none =>
    cases hf : db.users.find? (fun u0 => u0.email == user.email) with
    | some w =>
      have hcreate : create_user db user newId
          = Except.error CreateUserError.emailRegistered := by
        simp [create_user, hf]
      constructor
      · simp [register_user, hr, hcreate]
      · intro u
        simp [register_user, hr, hcreate]
    | none =>
      have hnoemail : ∀ x ∈ db.users, ¬ (x.email = user.email) := by
        intro x hx hcontra
        exact List.find?_eq_none.mp hf x hx (beq_iff_eq.mpr hcontra)
      have hdupuser : ∃ x ∈ db.users, x.username = user.username := by
        cases h with
        | inl hl => exact hl
        | inr hrr =>
          obtain ⟨x, hx, hxe⟩ := hrr
          exact absurd hxe (hnoemail x hx)
      have hany : (db.users.any fun v =>
          v.username == user.username || v.email == user.email) = true := by
        obtain ⟨x, hx, hxu⟩ := hdupuser
        apply List.any_eq_true.mpr
        refine ⟨x, hx, ?_⟩
        rw [hxu]
        simp
      have hcreate : create_user db user newId
          = Except.error CreateUserError.integrityError := by
        simp [create_user, hf, insert_user, hany]
      constructor
      · simp [register_user, hr, hcreate]
      · intro u
        simp [register_user, hr, hcreate]

/-- Witness for C2: registering a second "alice" (fresh email) against
`exampleDb` fails and leaves the user table unchanged. -/
theorem c2_witness :
    (register_user exampleDb
      { username := "alice", email := "fresh@example.com",
        password := "pw123456" } 7).1 = exampleDb ∧
    ∀ u, (register_user exampleDb
      { username := "alice", email := "fresh@example.com",
        password := "pw123456" } 7).2 ≠ RegisterResult.created u :=
  c2_duplicate_registration_rejected exampleDb
    { username := "alice", email := "fresh@example.com",
      password := "pw123456" } 7
    (Or.inl ⟨aliceUser, by decide, by rfl⟩)

end UrlShortner
